import Mathlib

/-!
A shallow embedding of the core of the rain-orderbook-matchmaker arbitrage
bot: the profit estimator (`src/utils.js`), the dryrun prober, the
binary-search opportunity finder and the multi-mode retrier
(`src/processes/dryrun.js`), and the pair processor and batch orchestrator
(`src/processOrders.js`).

All amounts are `ethers.BigNumber` values in the source; they are modelled
as `Int` (or `Nat` where the source value is always non-negative), with
`BigNumber.div`'s truncation toward zero modelled by `Int.tdiv` and
`Nat.div`.  Network calls are modelled as oracle inputs: each fallible
external call becomes an explicit outcome value fed to the model.
-/

namespace Matchmaker

/-- The 18-decimal fixed-point unit, `ethers.utils.parseUnits("1")`. -/
def One : Int := 10 ^ 18

/-- The constant `ethers.constants.MaxUint256`. -/
def MaxUint256 : Int := 2 ^ 256 - 1

/-- The enum `DryrunHaltReason` from src/processes/dryrun.js. -/
inductive DryrunHaltReason where
  | NoOpportunity
  | NoWalletFund
  | NoRoute
deriving DecidableEq, Repr

/-- A quote `{maxOutput, ratio}` attached to a take-order. -/
structure Quote where
  maxOutput : Int
  ratio : Int
deriving DecidableEq, Repr

/-- The opposing-orders argument of `estimateProfit`: either a
cross-orderbook group (the object carries an `orderbook` key and a list of
take-orders, each with a quote) or a single same-orderbook opposing order. -/
inductive OpposingOrders where
  | inter (takeOrders : List Quote)
  | intra (quote : Quote)
deriving DecidableEq, Repr

/-- The accumulation loop of `estimateProfit`'s inter-orderbook branch
(src/utils.js): walks the opposing take-orders, and for each one, while the
remaining opposing budget is positive and the maximum acceptable IO ratio
covers the order's ratio, fills `min(budget, maxOutput)`, accumulating the
opposing input and output.  The `break` on a non-positive budget is modelled
by returning the accumulators unchanged.  Returns
`(opposingInput, opposingOutput)`. -/
def interOppLoop (oppMaxIORatio : Int) :
    List Quote → Int → Int → Int → Int × Int
  | [], _budget, accIn, accOut => (accIn, accOut)
  | q :: rest, budget, accIn, accOut =>
    if budget ≤ 0 then (accIn, accOut)
    else if q.ratio ≤ oppMaxIORatio then
      let maxOut := if budget < q.maxOutput then budget else q.maxOutput
      interOppLoop oppMaxIORatio rest (budget - maxOut)
        (accIn + Int.tdiv (maxOut * q.ratio) One) (accOut + maxOut)
    else interOppLoop oppMaxIORatio rest budget accIn accOut

/-- The function `estimateProfit(orderPairObject, inputToEthPrice, outputToEthPrice,
opposingOrders, marketPrice, maxInput)` of src/utils.js, with
`orderPairObject` reduced to the quote of its single take-order
(`orderPairObject.takeOrders[0].quote`).  Returns `none` exactly when the
source returns `undefined` (neither `marketPrice` nor `opposingOrders`
given). -/
def estimateProfit (orderQuote : Quote) (inputToEthPrice outputToEthPrice : Int)
    (opposingOrders : Option OpposingOrders) (marketPrice : Option Int)
    (maxInput : Int) : Option Int :=
  match marketPrice with
  | some mp =>
    let marketAmountOut := Int.tdiv (maxInput * mp) One
    let orderInput := Int.tdiv (maxInput * orderQuote.ratio) One
    let estimatedProfit := marketAmountOut - orderInput
    some (Int.tdiv (estimatedProfit * inputToEthPrice) One)
  | none =>
    match opposingOrders with
    | some (.inter opp) =>
      let orderOutput := maxInput
      let orderInput := Int.tdiv (maxInput * orderQuote.ratio) One
      let opposingMaxInput :=
        if orderQuote.ratio = 0 then MaxUint256
        else Int.tdiv (maxInput * orderQuote.ratio) One
      let opposingMaxIORatio :=
        if orderQuote.ratio = 0 then MaxUint256
        else Int.tdiv (One * One) orderQuote.ratio
      let acc := interOppLoop opposingMaxIORatio opp opposingMaxInput 0 0
      let outputProfit := Int.tdiv ((orderOutput - acc.1) * outputToEthPrice) One
      let inputProfit := Int.tdiv ((acc.2 - orderInput) * inputToEthPrice) One
      some (outputProfit + inputProfit)
    | some (.intra opp) =>
      let orderMaxInput := Int.tdiv (orderQuote.maxOutput * orderQuote.ratio) One
      let opposingMaxInput := Int.tdiv (opp.maxOutput * opp.ratio) One
      let orderOutput :=
        if opp.ratio = 0 then orderQuote.maxOutput
        else if orderQuote.maxOutput ≤ opposingMaxInput then orderQuote.maxOutput
        else opposingMaxInput
      let orderInput := Int.tdiv (orderOutput * orderQuote.ratio) One
      let opposingOutput :=
        if opp.ratio = 0 then opp.maxOutput
        else if orderMaxInput ≤ opp.maxOutput then orderMaxInput
        else opp.maxOutput
      let opposingInput := Int.tdiv (opposingOutput * opp.ratio) One
      let outputProfitRaw := orderOutput - opposingInput
      let outputProfit :=
        Int.tdiv ((if outputProfitRaw < 0 then 0 else outputProfitRaw) * outputToEthPrice) One
      let inputProfitRaw := opposingOutput - orderInput
      let inputProfit :=
        Int.tdiv ((if inputProfitRaw < 0 then 0 else inputProfitRaw) * inputToEthPrice) One
      some (outputProfit + inputProfit)
    | none => none

/-- One step of the spec-side greedy fill: while budget remains and the
maximum acceptable counter-ratio covers this opposing order's ratio, fill
`min(budget, maxOutput)` and accumulate the opposing input and output.
State is `(budget, opposingInput, opposingOutput)`. -/
def specFillStep (counterRatioCap : Int) (st : Int × Int × Int) (q : Quote) :
    Int × Int × Int :=
  if 0 < st.1 ∧ q.ratio ≤ counterRatioCap then
    let fill := min st.1 q.maxOutput
    (st.1 - fill, st.2.1 + Int.tdiv (fill * q.ratio) One, st.2.2 + fill)
  else st

/-- The greedy fill of the cross-orderbook branch as the spec describes it:
fold over the opposing take-orders, filling each order up to the remaining
budget whenever the maximum acceptable counter-ratio covers the order's
ratio.  Returns `(opposingInput, opposingOutput)`.  Written from the spec's
words for comparison against the source's `interOppLoop`. -/
def specGreedyFill (counterRatioCap budget0 : Int) (opposing : List Quote) :
    Int × Int :=
  let final := opposing.foldl (specFillStep counterRatioCap) (budget0, 0, 0)
  (final.2.1, final.2.2)

/-- The cross-orderbook profit formula as the spec states it:
`profit = (orderOutput − opposingInput)×outputToEthPrice +
(opposingOutput − orderInput)×inputToEthPrice`, where the opposing
input/output come from the greedy walk, with the `floored` flag selecting
whether each term is floored at zero before conversion (the spec sentence
of claim C2 says it is).  Written from the spec's words for comparison
against the source's `estimateProfit`. -/
def specInterProfit (floored : Bool) (orderQuote : Quote)
    (inputToEthPrice outputToEthPrice : Int) (opposing : List Quote)
    (maxInput : Int) : Int :=
  let orderOutput := maxInput
  let orderInput := Int.tdiv (maxInput * orderQuote.ratio) One
  let budget :=
    if orderQuote.ratio = 0 then MaxUint256
    else Int.tdiv (maxInput * orderQuote.ratio) One
  let cap :=
    if orderQuote.ratio = 0 then MaxUint256
    else Int.tdiv (One * One) orderQuote.ratio
  let acc := specGreedyFill cap budget opposing
  let outTerm := orderOutput - acc.1
  let inTerm := acc.2 - orderInput
  let outTermFl := if floored then max outTerm 0 else outTerm
  let inTermFl := if floored then max inTerm 0 else inTerm
  Int.tdiv (outTermFl * outputToEthPrice) One + Int.tdiv (inTermFl * inputToEthPrice) One

/-- The outcome of one `signer.estimateGas` call: either the estimated gas,
or an error, classified the way src/processes/dryrun.js classifies it
(`INSUFFICIENT_FUNDS` code / "gas required exceeds allowance" /
"insufficient funds for gas" versus anything else). -/
inductive GasEstimation where
  | ok (gas : Nat)
  | insufficientFunds
  | otherError
deriving DecidableEq, Repr

/-- Oracle inputs for one `dryrun` call: the best-route lookup result
(`none` models `Router.findBestRoute` returning status `"NoWay"`, `some`
carries `route.amountOutBI`), the block numbers read before each
estimation, and the outcomes of the two gas estimations (the second one is
consulted only when the gas-coverage percentage is nonzero). -/
structure DryrunOracle where
  routeAmountOut : Option Nat
  blockNumber1 : Nat
  estimation1 : GasEstimation
  blockNumber2 : Nat
  estimation2 : GasEstimation
deriving DecidableEq, Repr

/-- The success payload of `dryrun` (the parts of `result.data` with
numeric content): the raw transaction's gas limit, the probed input, the
computed market price, the gas cost converted to buy token, and the block
number at discovery. -/
structure DryrunData where
  gasLimit : Nat
  maximumInput : Nat
  price : Nat
  gasCostInToken : Nat
  oppBlockNumber : Nat
deriving DecidableEq, Repr

/-- The take-orders list bundled into the trial transaction by `dryrun`
(src/processes/dryrun.js lines 97-110), as a function of `mode`.  The
source reads `orderPairObject.takeOrders[0]` for every nonzero mode, so the
(always nonempty) take-orders list is passed as head plus tail; `α` is the
opaque `takeOrder` payload. -/
def dryrunModeOrders {α : Type} (mode : Nat) (first : α) (rest : List α) :
    List α :=
  if mode = 0 then first :: rest
  else if mode = 1 then [first]
  else if mode = 2 then [first, first]
  else [first, first, first]

/-- The `dryrun` pipeline of src/processes/dryrun.js as a function of its
oracle: route lookup (`NoRoute` on `NoWay`), price computation, first gas
estimation with failure classification, gas limit at `103%` of the estimate
truncated (`gasLimit.mul("103").div("100")`), gas cost conversion, and —
when the gas-coverage percentage is nonzero — a second estimation whose gas
value is discarded on success. -/
def dryrunModel (oracle : DryrunOracle) (maximumInput gasPrice : Nat)
    (sellTokenDecimals buyTokenDecimals : Nat) (ethPriceFixed : Nat)
    (gasCoveragePercentage : Nat) : Except DryrunHaltReason DryrunData :=
  match oracle.routeAmountOut with
  | none => .error .NoRoute
  | some amountOut =>
    let maximumInputFixed := maximumInput * 10 ^ (18 - sellTokenDecimals)
    let rateFixed := amountOut * 10 ^ (18 - buyTokenDecimals)
    let price := rateFixed * 10 ^ 18 / maximumInputFixed
    match oracle.estimation1 with
    | .insufficientFunds => .error .NoWalletFund
    | .otherError => .error .NoOpportunity
    | .ok estimatedGas =>
      let gasLimit := estimatedGas * 103 / 100
      let gasCost := gasLimit * gasPrice
      let gasCostInToken := ethPriceFixed * gasCost / 10 ^ (36 - buyTokenDecimals)
      if gasCoveragePercentage = 0 then
        .ok ⟨gasLimit, maximumInput, price, gasCostInToken, oracle.blockNumber1⟩
      else
        match oracle.estimation2 with
        | .insufficientFunds => .error .NoWalletFund
        | .otherError => .error .NoOpportunity
        | .ok _ =>
          .ok ⟨gasLimit, maximumInput, price, gasCostInToken, oracle.blockNumber2⟩

/-- The outcome of one hop's `dryrun` call as seen by `findOpp`: either it
resolved, or it rejected with a halt reason. -/
inductive DryrunOutcome where
  | found
  | failed (reason : DryrunHaltReason)
deriving DecidableEq, Repr

/-- The final outcome of `findOpp`: a success returning the hop's dryrun
result (with the `maximumInput` it was probed at), or a rejection with a
halt reason. -/
inductive FindOppOutcome where
  | found (hop : Nat) (maximumInput : Int)
  | failed (reason : DryrunHaltReason)
deriving DecidableEq, Repr

/-- The binary-search loop of `findOpp` (src/processes/dryrun.js lines
252-311).  `probe i` is the outcome of the dryrun at hop `i` (each hop is
probed exactly once, in order, so any dependence of the dryrun on the
probed amount is absorbed into `probe`).  `rem` is the number of remaining
iterations, `i` the 1-based hop counter, `m` the current `maximumInput`,
`noRoute` the all-hops-failed-with-NoRoute flag.  Returns the list of
`maximumInput` values passed to `dryrun`, paired with the final outcome:
on success at hop 1 or the last hop return it; on an intermediate success
add `vaultBalance / 2^i`; on a `NoWalletFund` failure reject immediately;
on any other failure clear `noRoute` unless the reason was `NoRoute` and
subtract `vaultBalance / 2^i`; at loop end reject with `NoRoute` if the
flag survived and `NoOpportunity` otherwise. -/
def findOppLoop (probe : Nat → DryrunOutcome) (vaultBalance hops : Nat)
    (rem i : Nat) (m : Int) (noRoute : Bool) : List Int × FindOppOutcome :=
  match rem with
  | 0 => ([], .failed (if noRoute then .NoRoute else .NoOpportunity))
  | rem' + 1 =>
    match probe i with
    | .found =>
      if i = 1 ∨ i = hops then ([m], .found i m)
      else
        let next := findOppLoop probe vaultBalance hops rem' (i + 1)
          (m + (vaultBalance / 2 ^ i : Nat)) noRoute
        (m :: next.1, next.2)
    | .failed r =>
      if r = .NoWalletFund then ([m], .failed .NoWalletFund)
      else
        let noRoute' := if r ≠ .NoRoute then false else noRoute
        let next := findOppLoop probe vaultBalance hops rem' (i + 1)
          (m - (vaultBalance / 2 ^ i : Nat)) noRoute'
        (m :: next.1, next.2)

/-- The function `findOpp`: run the binary-search loop for `config.hops` iterations
starting from `maximumInput = vaultBalance` with the `noRoute` flag set. -/
def findOppModel (probe : Nat → DryrunOutcome) (vaultBalance hops : Nat) :
    List Int × FindOppOutcome :=
  findOppLoop probe vaultBalance hops hops 1 (vaultBalance : Int) true

/-- One settled promise of `findOppWithRetries`: a fulfilled `findOpp`
(carrying its result's `maximumInput`) or a rejected one (carrying its
reason). -/
inductive SettledFindOpp where
  | fulfilled (maximumInput : Int)
  | rejected (reason : DryrunHaltReason)
deriving DecidableEq, Repr

/-- The choice loop of `findOppWithRetries` (src/processes/dryrun.js lines
355-370): walk the settled results in mode order and keep the fulfilled
one with the strictly largest `maximumInput` (ties keep the earlier).
Returns `none` exactly when no promise fulfilled. -/
def chooseBestLoop : Option Int → List SettledFindOpp → Option Int
  | choice, [] => choice
  | choice, .fulfilled mi :: rest =>
    match choice with
    | none => chooseBestLoop (some mi) rest
    | some c => if c < mi then chooseBestLoop (some mi) rest
                else chooseBestLoop choice rest
  | choice, .rejected _ :: rest => chooseBestLoop choice rest

/-- The rejection scan of `findOppWithRetries` (src/processes/dryrun.js
lines 374-389): walk the settled results in mode order; at the first one
whose reason is `NoWalletFund` throw `NoWalletFund`, at the first one whose
reason is `NoRoute` throw `NoRoute`; if the scan finishes, throw
`NoOpportunity`.  (A fulfilled element has no reason and matches neither
test.) -/
def rejectedReasonScan : List SettledFindOpp → DryrunHaltReason
  | [] => .NoOpportunity
  | .rejected r :: rest =>
    if r = .NoWalletFund then .NoWalletFund
    else if r = .NoRoute then .NoRoute
    else rejectedReasonScan rest
  | .fulfilled _ :: rest => rejectedReasonScan rest

/-- The `findOppWithRetries` aggregation over the settled mode results: if some
mode fulfilled, return the fulfilled result with the largest
`maximumInput`; otherwise reject with the reason produced by the rejection
scan. -/
def findOppWithRetriesModel (settled : List SettledFindOpp) :
    Except DryrunHaltReason Int :=
  match chooseBestLoop none settled with
  | some mi => .ok mi
  | none => .error (rejectedReasonScan settled)

/-- The enum `ProcessPairHaltReason` from src/processOrders.js. -/
inductive ProcessPairHaltReason where
  | FailedToQuote
  | FailedToGetGasPrice
  | FailedToGetEthPrice
  | FailedToGetPools
  | TxFailed
  | TxMineFailed
  | UnexpectedError
deriving DecidableEq, Repr

/-- The enum `ProcessPairReportStatus` from src/processOrders.js. -/
inductive ProcessPairReportStatus where
  | ZeroOutput
  | NoOpportunity
  | FoundOpportunity
deriving DecidableEq, Repr

/-- The fields of a `processPair` report that the claims are about: the
status and the recorded actual gas cost (present only on the receipt
paths that computed one). -/
structure Report where
  status : ProcessPairReportStatus
  actualGasCost : Option Nat
deriving DecidableEq, Repr

/-- A transaction receipt as consumed by `processPair`: effective gas
price, gas used, and whether `receipt.status === "success"`. -/
structure Receipt where
  effectiveGasPrice : Nat
  gasUsed : Nat
  statusSuccess : Bool
deriving DecidableEq, Repr

/-- The outcome of `viemClient.waitForTransactionReceipt`: the receipt was
mined (success or reverted, per `statusSuccess`), or the wait threw — in
which case a receipt may still be extractable from the error
(`e.receipt`). -/
inductive ReceiptOutcome where
  | mined (receipt : Receipt)
  | threw (fromError : Option Receipt)
deriving DecidableEq, Repr

/-- A fresh quote for the single take-order, after the Quote Service
succeeded. -/
structure PairQuote where
  maxOutput : Nat
  ratio : Nat
deriving DecidableEq, Repr

/-- Oracle inputs for one `processPair` run, one per fallible external
call, in pipeline order: quote, gas price, pool fetch, the two eth-price
lookups (`.error` models a throw, a `none` component models `getEthPrice`
returning no price), the opportunity search, submission, and receipt
wait. -/
structure ProcessPairOracle where
  quote : Except Unit PairQuote
  gasPrice : Except Unit Nat
  pools : Except Unit Unit
  ethPrices : Except Unit (Option Nat × Option Nat)
  oppSearch : Except Unit Nat
  submit : Except Unit Nat
  receipt : ReceiptOutcome
deriving Repr

/-- The outcome of one `processPair` run: the halt reason (when it threw
or rejected), the report, the `gasCost` field exposed to the batch
orchestrator (set only on the success-receipt path), and whether the run
halted (threw/rejected) rather than returned. -/
structure ProcessPairResult where
  reason : Option ProcessPairHaltReason
  report : Option Report
  gasCost : Option Nat
  halted : Bool
deriving DecidableEq, Repr

/-- The reference-price step of `processPair` (src/processOrders.js lines
435-488): if the lookups threw, or either price came back missing, then
with gas-coverage percentage `"0"` both prices are replaced by `"0"` and
processing continues, and otherwise the pair halts with
`FailedToGetEthPrice`. -/
def ethPricesStep (o : ProcessPairOracle) (gasCoveragePercentage : Nat) :
    Except Unit (Nat × Nat) :=
  match o.ethPrices with
  | .error _ => if gasCoveragePercentage = 0 then .ok (0, 0) else .error ()
  | .ok (some pIn, some pOut) => .ok (pIn, pOut)
  | .ok _ => if gasCoveragePercentage = 0 then .ok (0, 0) else .error ()

/-- The tail of `processPair` from the opportunity search onward
(src/processOrders.js lines 493-695), given the in/out eth prices the
earlier stages produced.  A failed search returns a `NoOpportunity` report
(not a halt); a failed submission halts `TxFailed`; a mined receipt first
decrements the signer's tracked balance by `effectiveGasPrice × gasUsed`
and then branches on status — success returns a `FoundOpportunity` report
with `gasCost` set, reverted halts `TxMineFailed` with a partial
`FoundOpportunity` report that still records the actual gas cost; a throw
during the receipt wait halts `TxMineFailed`, decrementing the balance
only if a receipt could be extracted from the error.  Returns the result
and the signer's new tracked balance. -/
def processPairAfterPrices (o : ProcessPairOracle) (balance : Int)
    (_pIn _pOut : Nat) : ProcessPairResult × Int :=
  match o.oppSearch with
  | .error _ => (⟨none, some ⟨.NoOpportunity, none⟩, none, false⟩, balance)
  | .ok _opp =>
    match o.submit with
    | .error _ => (⟨some .TxFailed, none, none, true⟩, balance)
    | .ok _txhash =>
      match o.receipt with
      | .mined r =>
        let actualGasCost := r.effectiveGasPrice * r.gasUsed
        let newBalance := balance - actualGasCost
        if r.statusSuccess then
          (⟨none, some ⟨.FoundOpportunity, some actualGasCost⟩,
            some actualGasCost, false⟩, newBalance)
        else
          (⟨some .TxMineFailed, some ⟨.FoundOpportunity, some actualGasCost⟩,
            none, true⟩, newBalance)
      | .threw extracted =>
        match extracted with
        | some r =>
          let actualGasCost := r.effectiveGasPrice * r.gasUsed
          (⟨some .TxMineFailed, some ⟨.FoundOpportunity, some actualGasCost⟩,
            none, true⟩, balance - actualGasCost)
        | none =>
          (⟨some .TxMineFailed, some ⟨.FoundOpportunity, none⟩, none, true⟩,
            balance)

/-- The `processPair` state machine (src/processOrders.js lines 329-695):
quote (halt `FailedToQuote` on failure, `ZeroOutput` report on a zero
`maxOutput`), gas price (halt `FailedToGetGasPrice`), pool discovery (halt
`FailedToGetPools`), reference prices (`ethPricesStep`), then the tail
(`processPairAfterPrices`).  Returns the result and the signer's new
tracked balance. -/
def processPairModel (o : ProcessPairOracle) (gasCoveragePercentage : Nat)
    (balance : Int) : ProcessPairResult × Int :=
  match o.quote with
  | .error _ => (⟨some .FailedToQuote, none, none, true⟩, balance)
  | .ok q =>
    if q.maxOutput = 0 then
      (⟨none, some ⟨.ZeroOutput, none⟩, none, false⟩, balance)
    else
      match o.gasPrice with
      | .error _ => (⟨some .FailedToGetGasPrice, none, none, true⟩, balance)
      | .ok _gp =>
        match o.pools with
        | .error _ => (⟨some .FailedToGetPools, none, none, true⟩, balance)
        | .ok _ =>
          match ethPricesStep o gasCoveragePercentage with
          | .error _ => (⟨some .FailedToGetEthPrice, none, none, true⟩, balance)
          | .ok prices => processPairAfterPrices o balance prices.1 prices.2

/-- The running-average gas cost update of the batch orchestrator
(src/processOrders.js lines 182-216): both the returned-result branch and
the caught-halt branch apply the same update — when the pair carries a
`gasCost`, set the average to it if none was recorded yet and to
`(previousAverage + newCost) / 2` (truncating) otherwise. -/
def updateAvgGasCost (avg : Option Nat) (halted : Bool) (gasCost : Option Nat) :
    Option Nat :=
  if halted then
    match gasCost with
    | none => avg
    | some g =>
      match avg with
      | none => some g
      | some a => some ((a + g) / 2)
  else
    match gasCost with
    | none => avg
    | some g =>
      match avg with
      | none => some g
      | some a => some ((a + g) / 2)

/-- The batch orchestrator's average gas cost after processing the given
pair outcomes in order, each outcome being `(halted, gasCost)` of that
pair's `processPair` run. -/
def processOrdersAvgGasCost (outcomes : List (Bool × Option Nat)) : Option Nat :=
  outcomes.foldl (fun avg oc => updateAvgGasCost avg oc.1 oc.2) none

/-- Sum of the binary-search step sizes `vaultBalance / 2 ^ j` for
`j = i, i+1, …, i+rem-1` — the largest total adjustment the remaining
`rem` hops of `findOppLoop` can still apply. -/
def tailSum (vaultBalance i rem : Nat) : Nat :=
  match rem with
  | 0 => 0
  | rem' + 1 => vaultBalance / 2 ^ i + tailSum vaultBalance (i + 1) rem'

/-- Helper lemma: the step sizes halve, so the whole tail after step `i`
is bounded by step `i` itself. -/
theorem tailSum_le (vaultBalance : Nat) :
    ∀ rem i, tailSum vaultBalance (i + 1) rem ≤ vaultBalance / 2 ^ i := by
  intro rem
  induction rem with
  | zero => intro i; simp [tailSum]
  | succ r ih =>
    intro i
    have h1 : tailSum vaultBalance (i + 1 + 1) r ≤ vaultBalance / 2 ^ (i + 1) :=
      ih (i + 1)
    have h2 : vaultBalance / 2 ^ (i + 1) = vaultBalance / 2 ^ i / 2 := by
      rw [pow_succ, Nat.div_div_eq_div_mul]
    have h3 : vaultBalance / 2 ^ i / 2 + vaultBalance / 2 ^ i / 2 ≤
        vaultBalance / 2 ^ i := by omega
    simp only [tailSum]
    omega

/-- Invariant of the binary-search loop: if the current `maximumInput` is
at least the total remaining step budget and together with that budget
stays below the vault balance, then every probed `maximumInput` lies in
`[0, vaultBalance]`. -/
theorem findOppLoop_probes_in_range (probe : Nat → DryrunOutcome)
    (vaultBalance hops : Nat) :
    ∀ rem i (m : Int) (noRoute : Bool),
      (tailSum vaultBalance i rem : Int) ≤ m →
      m + tailSum vaultBalance i rem ≤ vaultBalance →
      ∀ x ∈ (findOppLoop probe vaultBalance hops rem i m noRoute).1,
        0 ≤ x ∧ x ≤ (vaultBalance : Int) := by
  intro rem
  induction rem with
  | zero =>
    intro i m noRoute _ _ x hx
    simp [findOppLoop] at hx
  | succ r ih =>
    intro i m noRoute hlo hhi x hx
    have hts : tailSum vaultBalance i (r + 1)
        = vaultBalance / 2 ^ i + tailSum vaultBalance (i + 1) r := rfl
    have hd0 : (0 : Int) ≤ (vaultBalance / 2 ^ i : Nat) := Int.ofNat_nonneg _
    have hts0 : (0 : Int) ≤ (tailSum vaultBalance (i + 1) r : Nat) :=
      Int.ofNat_nonneg _
    have hm0 : 0 ≤ m := le_trans (Int.ofNat_nonneg _) hlo
    have hmv : m ≤ (vaultBalance : Int) := by
      have : (0 : Int) ≤ (tailSum vaultBalance i (r + 1) : Nat) :=
        Int.ofNat_nonneg _
      omega
    have hlo' : (tailSum vaultBalance i (r + 1) : Int)
        = (vaultBalance / 2 ^ i : Nat) + (tailSum vaultBalance (i + 1) r : Nat) := by
      rw [hts]; push_cast; ring
    simp only [findOppLoop] at hx
    cases hp : probe i with
    | found =>
      rw [hp] at hx
      dsimp only at hx
      by_cases hi : i = 1 ∨ i = hops
      · rw [if_pos hi] at hx
        simp only [List.mem_singleton] at hx
        subst hx; exact ⟨hm0, hmv⟩
      · rw [if_neg hi] at hx
        simp only [List.mem_cons] at hx
        rcases hx with hx | hx
        · subst hx; exact ⟨hm0, hmv⟩
        · refine ih (i + 1) (m + (vaultBalance / 2 ^ i : Nat)) noRoute ?_ ?_ x hx
          · omega
          · omega
    | failed rr =>
      rw [hp] at hx
      dsimp only at hx
      by_cases hw : rr = DryrunHaltReason.NoWalletFund
      · rw [if_pos hw] at hx
        simp only [List.mem_singleton] at hx
        subst hx; exact ⟨hm0, hmv⟩
      · rw [if_neg hw] at hx
        simp only [List.mem_cons] at hx
        rcases hx with hx | hx
        · subst hx; exact ⟨hm0, hmv⟩
        · refine ih (i + 1) (m - (vaultBalance / 2 ^ i : Nat)) _ ?_ ?_ x hx
          · omega
          · omega

/-- C4 (confirmed).  For every execution of `findOpp`, with any vault
balance and hop budget and any per-hop dryrun outcomes, every
`maximumInput` value passed to the dryrun prober lies in the closed
interval `[0, vaultBalance]`: the search starts at `vaultBalance`, moves
by `vaultBalance / 2 ^ i` up on an intermediate success and down on a
non-`NoWalletFund` failure, and never leaves the interval. -/
theorem findOpp_maximumInput_in_range (probe : Nat → DryrunOutcome)
    (vaultBalance hops : Nat) :
    ∀ m ∈ (findOppModel probe vaultBalance hops).1,
      0 ≤ m ∧ m ≤ (vaultBalance : Int) := by
  intro m hm
  unfold findOppModel at hm
  cases hops with
  | zero => simp [findOppLoop] at hm
  | succ hp =>
    simp only [findOppLoop] at hm
    have hv0 : (0 : Int) ≤ (vaultBalance : Int) := Int.ofNat_nonneg _
    have hhalf : 2 * (vaultBalance / 2) ≤ vaultBalance := by omega
    have htail : tailSum vaultBalance 2 hp ≤ vaultBalance / 2 ^ 1 :=
      tailSum_le vaultBalance hp 1
    cases hpr : probe 1 with
    | found =>
      rw [hpr] at hm
      dsimp only at hm
      rw [if_pos (Or.inl trivial)] at hm
      simp only [List.mem_singleton] at hm
      subst hm; exact ⟨hv0, le_refl _⟩
    | failed rr =>
      rw [hpr] at hm
      dsimp only at hm
      by_cases hw : rr = DryrunHaltReason.NoWalletFund
      · rw [if_pos hw] at hm
        simp only [List.mem_singleton] at hm
        subst hm; exact ⟨hv0, le_refl _⟩
      · rw [if_neg hw] at hm
        simp only [List.mem_cons] at hm
        rcases hm with hm | hm
        · subst hm; exact ⟨hv0, le_refl _⟩
        · refine findOppLoop_probes_in_range probe vaultBalance (hp + 1) hp 2
            ((vaultBalance : Int) - (vaultBalance / 2 ^ 1 : Nat)) _ ?_ ?_ m hm
          · omega
          · omega

/-- Witness for C4: on a concrete three-hop all-failing search over vault
balance 8, the probed value 4 is within `[0, 8]`. -/
theorem findOpp_maximumInput_in_range_witness :
    (0 : Int) ≤ 4 ∧ (4 : Int) ≤ ((8 : Nat) : Int) :=
  findOpp_maximumInput_in_range (fun _ => .failed .NoOpportunity) 8 3 4
    (by decide)

/-- Helper lemma: if every remaining hop fails with a non-`NoWalletFund`
reason, the loop ends with `NoRoute` when the flag is set and every reason
is `NoRoute`, and with `NoOpportunity` when the flag is cleared or some
reason differs from `NoRoute`. -/
theorem findOppLoop_allFail (probe : Nat → DryrunOutcome)
    (vaultBalance hops : Nat) :
    ∀ rem i (m : Int) (noRoute : Bool),
      (∀ j, i ≤ j → j < i + rem → ∃ r, probe j = .failed r ∧ r ≠ .NoWalletFund) →
      ((∀ j, i ≤ j → j < i + rem → probe j = .failed .NoRoute) → noRoute = true →
          (findOppLoop probe vaultBalance hops rem i m noRoute).2 = .failed .NoRoute)
      ∧ ((∃ j, i ≤ j ∧ j < i + rem ∧ probe j ≠ .failed .NoRoute) ∨ noRoute = false →
          (findOppLoop probe vaultBalance hops rem i m noRoute).2
            = .failed .NoOpportunity) := by
  intro rem
  induction rem with
  | zero =>
    intro i m noRoute _
    constructor
    · intro _ hnr
      subst hnr
      simp [findOppLoop]
    · intro hcase
      rcases hcase with ⟨j, hj1, hj2, _⟩ | hnr
      · omega
      · subst hnr
        simp [findOppLoop]
  | succ r ih =>
    intro i m noRoute hfail
    obtain ⟨rr, hpr, hwf⟩ := hfail i (le_refl i) (by omega)
    have hshift : ∀ j, i + 1 ≤ j → j < i + 1 + r →
        ∃ s, probe j = .failed s ∧ s ≠ .NoWalletFund := by
      intro j h1 h2
      exact hfail j (by omega) (by omega)
    constructor
    · intro hall hnr
      subst hnr
      have hri : rr = DryrunHaltReason.NoRoute := by
        have := hall i (le_refl i) (by omega)
        rw [hpr] at this
        injection this
      simp only [findOppLoop]
      rw [hpr]
      dsimp only
      rw [if_neg hwf]
      have hnr' : (if rr ≠ DryrunHaltReason.NoRoute then false else true) = true := by
        simp [hri]
      rw [hnr']
      exact (ih (i + 1) _ true hshift).1
        (fun j h1 h2 => hall j (by omega) (by omega)) rfl
    · intro hcase
      simp only [findOppLoop]
      rw [hpr]
      dsimp only
      rw [if_neg hwf]
      rcases hcase with ⟨j, hj1, hj2, hj3⟩ | hnr
      · by_cases hji : j = i
        · rw [hji] at hj3
          have hrn : rr ≠ DryrunHaltReason.NoRoute := by
            intro hc
            exact hj3 (by rw [hpr, hc])
          have : (if rr ≠ DryrunHaltReason.NoRoute then false else noRoute) = false := by
            simp [hrn]
          rw [this]
          exact (ih (i + 1) _ false hshift).2 (Or.inr rfl)
        · exact (ih (i + 1) _ _ hshift).2 (Or.inl ⟨j, by omega, by omega, hj3⟩)
      · subst hnr
        have : (if rr ≠ DryrunHaltReason.NoRoute then false else false) = false := by
          by_cases h : rr = DryrunHaltReason.NoRoute <;> simp [h]
        rw [this]
        exact (ih (i + 1) _ false hshift).2 (Or.inr rfl)

/-- C5 (confirmed).  When `findOpp` runs to the end of its hop budget with
every hop failing and none failing with `NoWalletFund`: if every hop's
failure reason was `NoRoute`, the final rejected reason is `NoRoute`, and
if at least one hop failed with a different reason, it is
`NoOpportunity`. -/
theorem findOpp_allFail_final_reason (probe : Nat → DryrunOutcome)
    (vaultBalance hops : Nat)
    (hfail : ∀ j, 1 ≤ j → j ≤ hops → ∃ r, probe j = .failed r ∧ r ≠ .NoWalletFund) :
    ((∀ j, 1 ≤ j → j ≤ hops → probe j = .failed .NoRoute) →
        (findOppModel probe vaultBalance hops).2 = .failed .NoRoute)
    ∧ ((∃ j, 1 ≤ j ∧ j ≤ hops ∧ probe j ≠ .failed .NoRoute) →
        (findOppModel probe vaultBalance hops).2 = .failed .NoOpportunity) := by
  have h := findOppLoop_allFail probe vaultBalance hops hops 1
    (vaultBalance : Int) true
    (fun j h1 h2 => hfail j h1 (by omega))
  constructor
  · intro hall
    exact h.1 (fun j h1 h2 => hall j h1 (by omega)) rfl
  · intro ⟨j, h1, h2, h3⟩
    exact h.2 (Or.inl ⟨j, h1, by omega, h3⟩)

/-- Witness for C5: with two hops both failing `NoRoute`, the final
rejected reason is `NoRoute`. -/
theorem findOpp_allFail_final_reason_witness :
    (findOppModel (fun _ => .failed .NoRoute) 10 2).2
      = FindOppOutcome.failed .NoRoute :=
  (findOpp_allFail_final_reason (fun _ => .failed .NoRoute) 10 2
    (fun _ _ _ => ⟨.NoRoute, rfl, by decide⟩)).1 (fun _ _ _ => rfl)

/-- C1 counterexample.  The claim says a `NoWalletFund` rejection
dominates regardless of the other modes' reasons and ordering, but when
mode 1 rejects with `NoRoute` and mode 2 with `NoWalletFund`, the
rejection scan of `findOppWithRetries` hits the `NoRoute` element first
and propagates `NoRoute`, not `NoWalletFund`. -/
theorem findOppWithRetries_earlier_noRoute_wins :
    findOppWithRetriesModel [.rejected .NoRoute, .rejected .NoWalletFund]
        = .error .NoRoute
    ∧ DryrunHaltReason.NoRoute ≠ DryrunHaltReason.NoWalletFund := by
  constructor
  · rfl
  · decide

/-- Helper lemma: the choice loop returns its accumulator unchanged over a
list with no fulfilled element, so with no fulfilled mode it returns
`none`. -/
theorem chooseBestLoop_all_rejected :
    ∀ (settled : List SettledFindOpp), (∀ s ∈ settled, ∃ r, s = .rejected r) →
      ∀ choice, chooseBestLoop choice settled = choice := by
  intro settled
  induction settled with
  | nil => intro _ _; rfl
  | cons s rest ih =>
    intro hall choice
    obtain ⟨r, hr⟩ := hall s (List.mem_cons_self s rest)
    subst hr
    simp only [chooseBestLoop]
    exact ih (fun t ht => hall t (List.mem_cons_of_mem _ ht)) choice

/-- Helper lemma: the rejection scan returns `NoWalletFund` when some
element is a `NoWalletFund` rejection and no element before it is a
`NoRoute` rejection. -/
theorem rejectedReasonScan_noWalletFund :
    ∀ (settled : List SettledFindOpp) (k : Nat),
      settled[k]? = some (.rejected .NoWalletFund) →
      (∀ j, j < k → settled[j]? ≠ some (.rejected .NoRoute)) →
      rejectedReasonScan settled = .NoWalletFund := by
  intro settled
  induction settled with
  | nil =>
    intro k hk _
    simp at hk
  | cons s rest ih =>
    intro k hk hearlier
    cases k with
    | zero =>
      simp at hk
      subst hk
      rfl
    | succ k' =>
      simp only [List.getElem?_cons_succ] at hk
      cases s with
      | fulfilled mi =>
        exact ih k' hk (fun j hj => by
          have := hearlier (j + 1) (by omega)
          simpa using this)
      | rejected r =>
        by_cases hw : r = DryrunHaltReason.NoWalletFund
        · subst hw
          rfl
        · have hnr : r ≠ DryrunHaltReason.NoRoute := by
            intro hc
            subst hc
            exact hearlier 0 (by omega) (by simp)
          simp only [rejectedReasonScan, if_neg hw, if_neg hnr]
          exact ih k' hk (fun j hj => by
            have := hearlier (j + 1) (by omega)
            simpa using this)

/-- C1 amended (the code violates the claim as stated; see
`findOppWithRetries_earlier_noRoute_wins`).  When no mode fulfils, the
rejection scan walks the modes in order and propagates the first reason it
meets that is `NoWalletFund` or `NoRoute`; hence a `NoWalletFund`
rejection yields an overall `NoWalletFund` only when no earlier mode
rejected with `NoRoute`. -/
theorem findOppWithRetries_noWalletFund_unless_earlier_noRoute
    (settled : List SettledFindOpp) (k : Nat)
    (hall : ∀ s ∈ settled, ∃ r, s = .rejected r)
    (hk : settled[k]? = some (.rejected .NoWalletFund))
    (hearlier : ∀ j, j < k → settled[j]? ≠ some (.rejected .NoRoute)) :
    findOppWithRetriesModel settled = .error .NoWalletFund := by
  unfold findOppWithRetriesModel
  rw [chooseBestLoop_all_rejected settled hall none]
  rw [rejectedReasonScan_noWalletFund settled k hk hearlier]

/-- Witness for the amended C1: modes rejecting `[NoOpportunity,
NoWalletFund]` (no earlier `NoRoute`) propagate `NoWalletFund`. -/
theorem findOppWithRetries_noWalletFund_witness :
    findOppWithRetriesModel [.rejected .NoOpportunity, .rejected .NoWalletFund]
      = .error .NoWalletFund :=
  findOppWithRetries_noWalletFund_unless_earlier_noRoute
    [.rejected .NoOpportunity, .rejected .NoWalletFund] 1
    (by intro s hs
        simp only [List.mem_cons, List.not_mem_nil, or_false] at hs
        rcases hs with rfl | rfl
        · exact ⟨.NoOpportunity, rfl⟩
        · exact ⟨.NoWalletFund, rfl⟩)
    (by rfl)
    (by decide)

/-- C2 counterexample.  The claim (and the spec's §4.1 sentence) says each
of the two profit terms of the cross-orderbook branch is floored at zero
before conversion, but the source does not floor them there (only the
same-orderbook branch does).  With an order of ratio 1 whose opposing
order is too expensive to fill (ratio 2 against a counter-ratio cap of 1),
the negative input-side term cancels the positive output-side term: the
code returns 0 while the claimed floored formula gives `1e18`. -/
theorem estimateProfit_inter_no_floor_counterexample :
    estimateProfit ⟨One, One⟩ One One (some (.inter [⟨4 * One, 2 * One⟩])) none One
        = some 0
    ∧ specInterProfit true ⟨One, One⟩ One One [⟨4 * One, 2 * One⟩] One = One
    ∧ (0 : Int) ≠ One := by
  refine ⟨by decide, by decide, by decide⟩

/-- Helper lemma: the spec-side fold is inert once the budget is
exhausted. -/
theorem foldl_specFillStep_stuck (cap : Int) :
    ∀ (opp : List Quote) (st : Int × Int × Int), st.1 ≤ 0 →
      opp.foldl (specFillStep cap) st = st := by
  intro opp
  induction opp with
  | nil => intro st _; rfl
  | cons q rest ih =>
    intro st hst
    have hstep : specFillStep cap st q = st := by
      unfold specFillStep
      rw [if_neg]
      intro ⟨h1, _⟩
      omega
    rw [List.foldl_cons, hstep]
    exact ih st hst

/-- Helper lemma: the source's accumulation loop agrees with the spec-side
fold from any starting state. -/
theorem interOppLoop_eq_foldl (cap : Int) :
    ∀ (opp : List Quote) (budget accIn accOut : Int),
      interOppLoop cap opp budget accIn accOut
        = ((opp.foldl (specFillStep cap) (budget, accIn, accOut)).2.1,
           (opp.foldl (specFillStep cap) (budget, accIn, accOut)).2.2) := by
  intro opp
  induction opp with
  | nil => intro budget accIn accOut; rfl
  | cons q rest ih =>
    intro budget accIn accOut
    by_cases hb : budget ≤ 0
    · have hstep : specFillStep cap (budget, accIn, accOut) q
          = (budget, accIn, accOut) := by
        unfold specFillStep
        rw [if_neg]
        intro ⟨h1, _⟩
        dsimp at h1
        omega
      simp only [interOppLoop, if_pos hb, List.foldl_cons, hstep]
      rw [foldl_specFillStep_stuck cap rest _ hb]
    · by_cases hr : q.ratio ≤ cap
      · have hmin : (if budget < q.maxOutput then budget else q.maxOutput)
            = min budget q.maxOutput := by
          rcases lt_or_ge budget q.maxOutput with h | h
          · rw [if_pos h, min_eq_left (le_of_lt h)]
          · rw [if_neg (not_lt.mpr h), min_eq_right h]
        have hstep : specFillStep cap (budget, accIn, accOut) q
            = (budget - min budget q.maxOutput,
               accIn + Int.tdiv (min budget q.maxOutput * q.ratio) One,
               accOut + min budget q.maxOutput) := by
          unfold specFillStep
          rw [if_pos ⟨by dsimp; omega, hr⟩]
        simp only [interOppLoop, if_neg hb, if_pos hr, List.foldl_cons, hstep,
          hmin]
        exact ih _ _ _
      · have hstep : specFillStep cap (budget, accIn, accOut) q
            = (budget, accIn, accOut) := by
          unfold specFillStep
          rw [if_neg]
          intro ⟨_, h2⟩
          exact hr h2
        simp only [interOppLoop, if_neg hb, if_neg hr, List.foldl_cons, hstep]
        exact ih _ _ _

/-- Helper lemma: the source loop started at zero accumulators is the
spec-side greedy fill. -/
theorem interOppLoop_eq_specGreedyFill (cap budget : Int) (opp : List Quote) :
    interOppLoop cap opp budget 0 0 = specGreedyFill cap budget opp :=
  interOppLoop_eq_foldl cap opp budget 0 0

/-- C2 amended.  For every call to `estimateProfit` with a cross-orderbook
opposing group (no `marketPrice`), the returned profit equals
`(orderOutput − opposingInput)×outputToEthPrice +
(opposingOutput − orderInput)×inputToEthPrice` with truncating division —
the two terms are NOT floored at zero, so either may contribute
negatively. -/
theorem estimateProfit_inter_eq_spec_unfloored (orderQuote : Quote)
    (inputToEthPrice outputToEthPrice maxInput : Int) (opp : List Quote) :
    estimateProfit orderQuote inputToEthPrice outputToEthPrice
        (some (.inter opp)) none maxInput
      = some (specInterProfit false orderQuote inputToEthPrice outputToEthPrice
          opp maxInput) := by
  simp only [estimateProfit, specInterProfit, interOppLoop_eq_specGreedyFill,
    Bool.false_eq_true, if_false]

/-- C3 counterexample.  The claim says the success result's gas limit is
`ceil(estimatedGas × 1.03)`.  With an estimated gas of 1 the ceiling is
`⌈1.03⌉ = 2` (as a rational, `⌈103·1/100⌉ = (103·1 + 99)/100 = 2`), but
`gasLimit.mul("103").div("100")` truncates and the code returns 1. -/
theorem dryrun_gasLimit_rounds_down :
    dryrunModel ⟨some 1, 5, .ok 1, 9, .ok 7⟩ 1 1 18 18 0 0
        = .ok ⟨1, 1, 10 ^ 18, 0, 5⟩
    ∧ (103 * 1 + 99) / 100 = 2
    ∧ (1 : Nat) ≠ 2 := by
  refine ⟨rfl, by decide, by decide⟩

/-- C3 amended.  For every successful dryrun result, the returned raw
transaction's gas limit equals `floor(estimatedGas × 103 / 100)` — 103% of
the chain's gas estimate rounded DOWN by the truncating division — where
`estimatedGas` is the gas amount returned by the first gas estimation. -/
theorem dryrun_success_gasLimit_floor (oracle : DryrunOracle)
    (maximumInput gasPrice sellTokenDecimals buyTokenDecimals : Nat)
    (ethPriceFixed gasCoveragePercentage estimatedGas : Nat) (d : DryrunData)
    (hest : oracle.estimation1 = .ok estimatedGas)
    (hok : dryrunModel oracle maximumInput gasPrice sellTokenDecimals
        buyTokenDecimals ethPriceFixed gasCoveragePercentage = .ok d) :
    d.gasLimit = estimatedGas * 103 / 100 := by
  unfold dryrunModel at hok
  cases hroute : oracle.routeAmountOut with
  | none => rw [hroute] at hok; exact absurd hok (by simp)
  | some amountOut =>
    rw [hroute, hest] at hok
    dsimp only at hok
    by_cases hcov : gasCoveragePercentage = 0
    · rw [if_pos hcov] at hok
      injection hok with hok
      rw [← hok]
    · rw [if_neg hcov] at hok
      cases hest2 : oracle.estimation2 with
      | ok g2 =>
        rw [hest2] at hok
        injection hok with hok
        rw [← hok]
      | insufficientFunds => rw [hest2] at hok; exact absurd hok (by simp)
      | otherError => rw [hest2] at hok; exact absurd hok (by simp)

/-- Witness for the amended C3: a successful dryrun with estimated gas 250
carries gas limit `250 × 103 / 100 = 257`. -/
theorem dryrun_success_gasLimit_floor_witness :
    (DryrunData.mk 257 1 (10 ^ 18) 0 5).gasLimit = 250 * 103 / 100 :=
  dryrun_success_gasLimit_floor ⟨some 1, 5, .ok 250, 9, .ok 7⟩ 1 1 18 18 0 0
    250 ⟨257, 1, 10 ^ 18, 0, 5⟩ rfl rfl

/-- C8 counterexample.  The claim says `estimateProfit` with a
`marketPrice` is linear in `maxInput` (`f(k·maxInput) = k·f(maxInput)` for
every positive integer `k`).  With `marketPrice = 1` (one wei per unit),
`ratio = 0`, `inputToEthPrice = 1e18` and `maxInput = 1`, the truncating
fixed-point division gives `f(1) = 0`, yet at `k = 10^18` we get
`f(10^18) = 1 ≠ 10^18 · 0`. -/
theorem estimateProfit_market_not_linear :
    estimateProfit ⟨0, 0⟩ One One none (some 1) (10 ^ 18 * 1) = some 1
    ∧ estimateProfit ⟨0, 0⟩ One One none (some 1) 1 = some 0
    ∧ (1 : Int) ≠ 10 ^ 18 * 0 := by
  refine ⟨by decide, by decide, by decide⟩

/-- Helper lemma: when `maxInput` and `inputToEthPrice` are whole multiples
of the fixed-point unit, every division in the market-price branch is
exact and the profit has the closed form `a · b · (marketPrice − ratio)`. -/
theorem estimateProfit_market_eval (mo out a b mp r : Int) :
    estimateProfit ⟨mo, r⟩ (b * One) out none (some mp) (a * One)
      = some (a * b * (mp - r)) := by
  have hOne : One ≠ 0 := by decide
  simp only [estimateProfit]
  have h1 : Int.tdiv (a * One * mp) One = a * mp := by
    rw [show a * One * mp = a * mp * One by ring, Int.mul_tdiv_cancel _ hOne]
  have h2 : Int.tdiv (a * One * r) One = a * r := by
    rw [show a * One * r = a * r * One by ring, Int.mul_tdiv_cancel _ hOne]
  rw [h1, h2]
  have h3 : Int.tdiv ((a * mp - a * r) * (b * One)) One = (a * mp - a * r) * b := by
    rw [show (a * mp - a * r) * (b * One) = (a * mp - a * r) * b * One by ring,
      Int.mul_tdiv_cancel _ hOne]
  rw [h3]
  congr 1
  ring

/-- C8 amended (truncating division breaks the claim as stated; see
`estimateProfit_market_not_linear`).  When `maxInput` and
`inputToEthPrice` are whole multiples of the fixed-point unit `1e18` (so
every division is exact), `estimateProfit` with a `marketPrice` is linear
in `maxInput` — scaling `maxInput` by any positive integer `k` scales the
profit by `k` — and monotonically non-decreasing in
`(marketPrice − order.ratio)` for fixed `maxInput` and non-negative
`inputToEthPrice`. -/
theorem estimateProfit_market_linear_monotone_exact
    (mo out a b k mp r mp' r' : Int) (ha : 0 ≤ a) (hb : 0 ≤ b) (hk : 0 < k)
    (hd : mp - r ≤ mp' - r') :
    estimateProfit ⟨mo, r⟩ (b * One) out none (some mp) (k * (a * One))
      = (estimateProfit ⟨mo, r⟩ (b * One) out none (some mp) (a * One)).map
          (fun v => k * v)
    ∧ ∀ v w, estimateProfit ⟨mo, r⟩ (b * One) out none (some mp) (a * One) = some v →
        estimateProfit ⟨mo, r'⟩ (b * One) out none (some mp') (a * One) = some w →
        v ≤ w := by
  constructor
  · rw [show k * (a * One) = (k * a) * One by ring, estimateProfit_market_eval,
      estimateProfit_market_eval]
    simp only [Option.map_some']
    congr 1
    ring
  · intro v w hv hw
    rw [estimateProfit_market_eval] at hv
    rw [estimateProfit_market_eval] at hw
    injection hv with hv
    injection hw with hw
    subst hv
    subst hw
    have hab : 0 ≤ a * b := mul_nonneg ha hb
    calc a * b * (mp - r) ≤ a * b * (mp' - r') :=
      mul_le_mul_of_nonneg_left hd hab

/-- Witness for the amended C8: at `a = 1`, `b = 1`, `k = 2`,
`marketPrice = 3`, `ratio = 1`, doubling `maxInput` doubles the profit
(`some 4 = map (2·) (some 2)`). -/
theorem estimateProfit_market_linear_monotone_exact_witness :
    estimateProfit ⟨0, 1⟩ (1 * One) 0 none (some 3) (2 * (1 * One)) = some 4 := by
  have h := (estimateProfit_market_linear_monotone_exact 0 0 1 1 2 3 1 5 2
    (by decide) (by decide) (by decide) (by decide)).1
  rw [h]
  decide

/-- C9 (confirmed).  In the batch orchestrator, after each pair that
reports a gas cost the running average becomes that pair's cost if none
was recorded before and `(previousAverage + newCost) / 2` (truncating,
like every division in the system) otherwise, applied in pair-processing
order; a pair without a gas cost leaves the average unchanged.  The same
update applies whether the pair returned or halted. -/
theorem processOrders_avgGasCost_update (outcomes : List (Bool × Option Nat))
    (halted : Bool) (gasCost : Option Nat) :
    (gasCost = none →
        processOrdersAvgGasCost (outcomes ++ [(halted, gasCost)])
          = processOrdersAvgGasCost outcomes)
    ∧ ∀ g, gasCost = some g →
        processOrdersAvgGasCost (outcomes ++ [(halted, gasCost)])
          = some (match processOrdersAvgGasCost outcomes with
                  | none => g
                  | some a => (a + g) / 2) := by
  unfold processOrdersAvgGasCost
  constructor
  · rintro rfl
    simp only [List.foldl_append, List.foldl_cons, List.foldl_nil]
    cases halted <;> rfl
  · rintro g rfl
    simp only [List.foldl_append, List.foldl_cons, List.foldl_nil]
    cases hA : List.foldl (fun avg oc => updateAvgGasCost avg oc.1 oc.2)
        none outcomes <;> cases halted <;> rfl

/-- Witness for C9: appending a halted pair with gas cost 10 to a batch
whose only recorded cost so far is 4 moves the average to
`(4 + 10) / 2 = 7`. -/
theorem processOrders_avgGasCost_update_witness :
    processOrdersAvgGasCost [(false, some 4), (true, some 10)] = some 7 := by
  have h := (processOrders_avgGasCost_update [(false, some 4)] true
    (some 10)).2 10 rfl
  rw [show ([(false, some 4), (true, some 10)] : List (Bool × Option Nat))
    = [(false, some 4)] ++ [(true, some 10)] from rfl, h]
  decide

/-- C10 (confirmed).  The take-orders bundled into the trial transaction
by `dryrun` are: every take-order of the pair in mode 0, one copy of the
first take-order in mode 1, two copies in mode 2, and exactly three copies
for every mode `≥ 3` — all modes above 3 behave identically to mode 3. -/
theorem dryrun_mode_order_bundling {α : Type} (mode : Nat) (first : α)
    (rest : List α) (h3 : 3 ≤ mode) :
    dryrunModeOrders mode first rest = dryrunModeOrders 3 first rest
    ∧ dryrunModeOrders mode first rest = [first, first, first]
    ∧ dryrunModeOrders 0 first rest = first :: rest
    ∧ dryrunModeOrders 1 first rest = [first]
    ∧ dryrunModeOrders 2 first rest = [first, first] := by
  have h0 : mode ≠ 0 := by omega
  have h1 : mode ≠ 1 := by omega
  have h2 : mode ≠ 2 := by omega
  unfold dryrunModeOrders
  rw [if_neg h0, if_neg h1, if_neg h2]
  exact ⟨rfl, rfl, rfl, rfl, rfl⟩

/-- Witness for C10: mode 7 bundles the same three copies as mode 3. -/
theorem dryrun_mode_order_bundling_witness :
    dryrunModeOrders 7 (42 : Nat) [1, 2] = dryrunModeOrders 3 42 [1, 2] :=
  (dryrun_mode_order_bundling 7 42 [1, 2] (by decide)).1

/-- Helper lemma: when quoting, gas price, pool discovery and the
reference-price step all succeed, `processPair` proceeds to the
tail stages with the produced prices. -/
theorem processPairModel_reaches_tail (o : ProcessPairOracle) (cov : Nat)
    (balance : Int) (q : PairQuote) (gp : Nat) (prices : Nat × Nat)
    (hq : o.quote = .ok q) (hmo : q.maxOutput ≠ 0) (hgp : o.gasPrice = .ok gp)
    (hpool : o.pools = .ok ()) (hpr : ethPricesStep o cov = .ok prices) :
    processPairModel o cov balance
      = processPairAfterPrices o balance prices.1 prices.2 := by
  unfold processPairModel
  rw [hq]
  simp [hmo, hgp, hpool, hpr]

/-- Helper lemma: when quoting, gas price and pool discovery succeed but
the reference-price step fails, `processPair` halts with
`FailedToGetEthPrice`. -/
theorem processPairModel_ethPrice_halt (o : ProcessPairOracle) (cov : Nat)
    (balance : Int) (q : PairQuote) (gp : Nat)
    (hq : o.quote = .ok q) (hmo : q.maxOutput ≠ 0) (hgp : o.gasPrice = .ok gp)
    (hpool : o.pools = .ok ()) (hpr : ethPricesStep o cov = .error ()) :
    processPairModel o cov balance
      = (⟨some .FailedToGetEthPrice, none, none, true⟩, balance) := by
  unfold processPairModel
  rw [hq]
  simp [hmo, hgp, hpool, hpr]

/-- Helper lemma: with a found opportunity, a successful submission and a
mined receipt, the tail of `processPair` decrements the balance by the
actual gas cost and branches on the receipt status. -/
theorem processPairAfterPrices_mined (o : ProcessPairOracle) (balance : Int)
    (p1 p2 : Nat) (opp tx : Nat) (r : Receipt)
    (hopp : o.oppSearch = .ok opp) (hsub : o.submit = .ok tx)
    (hrec : o.receipt = .mined r) :
    processPairAfterPrices o balance p1 p2
      = (if r.statusSuccess then
          (⟨none, some ⟨.FoundOpportunity, some (r.effectiveGasPrice * r.gasUsed)⟩,
            some (r.effectiveGasPrice * r.gasUsed), false⟩,
           balance - (r.effectiveGasPrice * r.gasUsed : Nat))
         else
          (⟨some .TxMineFailed,
            some ⟨.FoundOpportunity, some (r.effectiveGasPrice * r.gasUsed)⟩,
            none, true⟩,
           balance - (r.effectiveGasPrice * r.gasUsed : Nat))) := by
  unfold processPairAfterPrices
  rw [hopp]
  simp only [hsub, hrec]

/-- C6 (confirmed).  When the submitted transaction's receipt comes back
with reverted status, `processPair` still decrements the signer's tracked
balance by the actual gas cost `effectiveGasPrice × gasUsed` — exactly the
same decrement as in the success case — records a `FoundOpportunity`
report carrying that actual gas cost, and halts with `TxMineFailed` (the
batch-level `gasCost` field stays unset). -/
theorem processPair_reverted_receipt_accounting
    (o : ProcessPairOracle) (cov : Nat) (balance : Int) (q : PairQuote)
    (gp opp tx : Nat) (prices : Nat × Nat) (r : Receipt)
    (hq : o.quote = .ok q) (hmo : q.maxOutput ≠ 0) (hgp : o.gasPrice = .ok gp)
    (hpool : o.pools = .ok ()) (hpr : ethPricesStep o cov = .ok prices)
    (hopp : o.oppSearch = .ok opp) (hsub : o.submit = .ok tx)
    (hrec : o.receipt = .mined r) (hrev : r.statusSuccess = false) :
    (processPairModel o cov balance).2
        = balance - (r.effectiveGasPrice * r.gasUsed : Nat)
    ∧ (processPairModel o cov balance).1.reason = some .TxMineFailed
    ∧ (processPairModel o cov balance).1.report
        = some ⟨.FoundOpportunity, some (r.effectiveGasPrice * r.gasUsed)⟩
    ∧ (processPairModel o cov balance).1.halted = true
    ∧ (processPairModel o cov balance).1.gasCost = none
    ∧ (processPairModel { o with receipt := .mined { r with statusSuccess := true } }
          cov balance).2
        = (processPairModel o cov balance).2 := by
  have hpm : processPairModel o cov balance
      = (⟨some .TxMineFailed,
          some ⟨.FoundOpportunity, some (r.effectiveGasPrice * r.gasUsed)⟩,
          none, true⟩,
         balance - (r.effectiveGasPrice * r.gasUsed : Nat)) := by
    rw [processPairModel_reaches_tail o cov balance q gp prices hq hmo hgp hpool hpr,
      processPairAfterPrices_mined o balance prices.1 prices.2 opp tx r hopp hsub hrec,
      hrev]
    simp
  have hpm' : processPairModel
      { o with receipt := .mined { r with statusSuccess := true } } cov balance
      = (⟨none,
          some ⟨.FoundOpportunity, some (r.effectiveGasPrice * r.gasUsed)⟩,
          some (r.effectiveGasPrice * r.gasUsed), false⟩,
         balance - (r.effectiveGasPrice * r.gasUsed : Nat)) := by
    rw [processPairModel_reaches_tail
        { o with receipt := .mined { r with statusSuccess := true } }
        cov balance q gp prices hq hmo hgp hpool hpr,
      processPairAfterPrices_mined
        { o with receipt := .mined { r with statusSuccess := true } }
        balance prices.1 prices.2 opp tx ⟨r.effectiveGasPrice, r.gasUsed, true⟩
        hopp hsub rfl]
    simp
  rw [hpm, hpm']
  exact ⟨rfl, rfl, rfl, rfl, rfl, rfl⟩

/-- Witness for C6: a concrete run whose receipt reverted with
`effectiveGasPrice = 10`, `gasUsed = 7` leaves the tracked balance at
`100 − 70`. -/
theorem processPair_reverted_receipt_accounting_witness :
    (processPairModel
        ⟨.ok ⟨5, 1⟩, .ok 3, .ok (), .ok (some 2, some 4), .ok 9, .ok 11,
          .mined ⟨10, 7, false⟩⟩ 1 100).2
      = 100 - ((10 * 7 : Nat) : Int) :=
  (processPair_reverted_receipt_accounting
    ⟨.ok ⟨5, 1⟩, .ok 3, .ok (), .ok (some 2, some 4), .ok 9, .ok 11,
      .mined ⟨10, 7, false⟩⟩ 1 100 ⟨5, 1⟩ 3 9 11 (2, 4) ⟨10, 7, false⟩
    rfl (by decide) rfl rfl rfl rfl rfl rfl rfl).1

/-- C7 (confirmed).  When either eth-price lookup yields no price (or the
lookup throws): with gas-coverage percentage `"0"` both prices are set to
`"0"` and processing continues to the opportunity search; otherwise the
pair halts with `FailedToGetEthPrice`. -/
theorem processPair_missing_ethPrice_policy
    (o : ProcessPairOracle) (cov : Nat) (balance : Int) (q : PairQuote) (gp : Nat)
    (hq : o.quote = .ok q) (hmo : q.maxOutput ≠ 0) (hgp : o.gasPrice = .ok gp)
    (hpool : o.pools = .ok ())
    (hmiss : o.ethPrices = .error ()
      ∨ ∃ pr, o.ethPrices = .ok pr ∧ (pr.1 = none ∨ pr.2 = none)) :
    (cov = 0 →
        processPairModel o cov balance = processPairAfterPrices o balance 0 0)
    ∧ (cov ≠ 0 →
        processPairModel o cov balance
          = (⟨some .FailedToGetEthPrice, none, none, true⟩, balance)) := by
  have hstep : ethPricesStep o cov
      = if cov = 0 then .ok (0, 0) else .error () := by
    unfold ethPricesStep
    rcases hmiss with h | ⟨pr, hpr, hnone⟩
    · rw [h]
    · rw [hpr]
      rcases pr with ⟨p1, p2⟩
      rcases hnone with h1 | h2
      · subst h1
        cases p2 <;> rfl
      · subst h2
        cases p1 <;> rfl
  constructor
  · intro h0
    have hstep0 : ethPricesStep o cov = .ok (0, 0) := by
      rw [hstep, if_pos h0]
    exact processPairModel_reaches_tail o cov balance q gp (0, 0) hq hmo hgp
      hpool hstep0
  · intro hne
    exact processPairModel_ethPrice_halt o cov balance q gp hq hmo hgp hpool
      (by rw [hstep, if_neg hne])

/-- Witness for C7: with the buy-token price missing and gas coverage
`"0"`, processing continues into the opportunity-search tail with both
prices zero. -/
theorem processPair_missing_ethPrice_policy_witness :
    processPairModel
        ⟨.ok ⟨5, 1⟩, .ok 3, .ok (), .ok (none, some 4), .ok 9, .ok 11,
          .mined ⟨10, 7, true⟩⟩ 0 50
      = processPairAfterPrices
          ⟨.ok ⟨5, 1⟩, .ok 3, .ok (), .ok (none, some 4), .ok 9, .ok 11,
            .mined ⟨10, 7, true⟩⟩ 50 0 0 :=
  (processPair_missing_ethPrice_policy
    ⟨.ok ⟨5, 1⟩, .ok 3, .ok (), .ok (none, some 4), .ok 9, .ok 11,
      .mined ⟨10, 7, true⟩⟩ 0 50 ⟨5, 1⟩ 3 rfl (by decide) rfl rfl
    (Or.inr ⟨(none, some 4), rfl, Or.inl rfl⟩)).1 rfl


end Matchmaker
